import Mathlib

/-!
Shallow embedding of the venture-pilot analysis backend: the response-parsing
fallback ladder, the stage validators/normalizers, the deterministic derived
classifications (market saturation, repository activity), competitor
deduplication, the GitRoll polling loop, founder extraction filtering, and the
upload-endpoint orchestration, together with theorems settling the stated
properties of each.

Python conventions are modelled as follows: machine-level exceptions raised
inside a `try` block become `Option`/`Except` failures; Python dictionaries
parsed from JSON become the `Json` inductive; `dict.get(k, d)` becomes a
lookup with default; Python truthiness of JSON values becomes `jsonTruthy`.
External library primitives (`json.loads`, `re.search`) are parameters of the
embedded functions, so every theorem quantifies over their behaviour.
-/

namespace VenturePilot

/-- JSON values as produced by a strict JSON parse (the shape of what Python
`json.loads` can return). Object field lists model the resulting dict. -/
inductive Json where
  | null : Json
  | bool (b : Bool) : Json
  | num (q : ℚ) : Json
  | str (s : String) : Json
  | arr (elems : List Json) : Json
  | obj (fields : List (String × Json)) : Json
deriving Repr, Inhabited

/-- Python truthiness of a JSON value (`if x:`). -/
def jsonTruthy : Json → Bool
  | .null => false
  | .bool b => b
  | .num q => !(q == 0)
  | .str s => !(s == "")
  | .arr l => !l.isEmpty
  | .obj l => !l.isEmpty

/-- `d.get(k)` on a parsed JSON object: `none` models a missing key. -/
def jGet (fields : List (String × Json)) (k : String) : Option Json :=
  List.lookup k fields

/-- `d.get(k, default)` on a parsed JSON object. -/
def jGetD (fields : List (String × Json)) (k : String) (default : Json) : Json :=
  (jGet fields k).getD default

/-- Python truthiness of an `Optional[str]` (`if o:`). -/
def pyTruthyStr (o : Option String) : Bool :=
  match o with
  | none => false
  | some s => !(s == "")

/-- Python `str.strip()`: drop leading and trailing whitespace. Implemented
on the character list so that it reduces inside the kernel. -/
def pyStrip (s : String) : String :=
  ⟨((s.toList.dropWhile Char.isWhitespace).reverse.dropWhile Char.isWhitespace).reverse⟩

/-- Python `str.lower()` (ASCII case folding). -/
def pyLower (s : String) : String :=
  ⟨s.toList.map Char.toLower⟩

/-- Helper for `pySplitWs`: accumulate the current (reversed) token. -/
def wsSplitGo : List Char → List Char → List (List Char)
  | [], acc => if acc.isEmpty then [] else [acc.reverse]
  | c :: cs, acc =>
    if c.isWhitespace then
      if acc.isEmpty then wsSplitGo cs [] else acc.reverse :: wsSplitGo cs []
    else wsSplitGo cs (c :: acc)

/-- Python `str.split()` with no separator: split on whitespace runs,
dropping empty pieces. -/
def pySplitWs (s : String) : List String :=
  (wsSplitGo s.toList []).map (fun cs => ⟨cs⟩)

/-- Helper for `pySplitLines`: split on a newline, keeping empty pieces. -/
def lineSplitGo : List Char → List Char → List (List Char)
  | [], acc => [acc.reverse]
  | c :: cs, acc =>
    if c = '\n' then acc.reverse :: lineSplitGo cs []
    else lineSplitGo cs (c :: acc)

/-- Python `str.split('\n')`. -/
def pySplitLines (s : String) : List String :=
  (lineSplitGo s.toList []).map (fun cs => ⟨cs⟩)

/-- Python `sub in s` (substring containment). -/
def pyContains (s sub : String) : Bool :=
  (List.range (s.toList.length + 1)).any
    (fun i => sub.toList.isPrefixOf (s.toList.drop i))

/-! ### CompetitorAgent._calculate_market_saturation
(src/app/services/competitor_agent.py, lines 364-375) -/

def _calculate_market_saturation (competitor_count : Nat) : String :=
  if competitor_count = 0 then "low"
  else if competitor_count ≤ 3 then "low"
  else if competitor_count ≤ 8 then "medium"
  else "high"

/-! ### CompetitorAgent._deduplicate_competitors
(src/app/services/competitor_agent.py, lines 154-167) -/

/-- A competitor record; `name = none` models a dict without a `name` key
(`competitor.get('name', '')` then yields the empty string). -/
structure Competitor where
  name : Option String
  description : String
  website : String
deriving Repr, DecidableEq

/-- `competitor.get('name', '').lower().strip()` -/
def competitorKey (c : Competitor) : String :=
  pyStrip (pyLower (c.name.getD ""))

/-- The loop body of `_deduplicate_competitors`, with `seen` accumulating the
name keys already emitted (Python uses a `set`; membership is all that is
consulted). -/
def dedupGo (seen : List String) : List Competitor → List Competitor
  | [] => []
  | c :: rest =>
    let key := competitorKey c
    if key ≠ "" ∧ key ∉ seen then c :: dedupGo (key :: seen) rest
    else dedupGo seen rest

def _deduplicate_competitors (competitors : List Competitor) : List Competitor :=
  dedupGo [] competitors

/-! ### GitHubAnalyzer._assess_activity
(src/app/services/github_analyzer.py, lines 172-198)

`parse_days` models `(datetime.now(tz) - datetime.fromisoformat(...)).days`:
it returns `none` when the timestamp cannot be parsed (the `except` path). -/

def _assess_activity (parse_days : String → Option Int) (updated_at : String) : String :=
  if updated_at = "" then "Desconocido"
  else
    match parse_days updated_at with
    | none => "Desconocido"
    | some days_since_update =>
      if days_since_update ≤ 7 then "Muy Alta"
      else if days_since_update ≤ 30 then "Alta"
      else if days_since_update ≤ 90 then "Media"
      else "Baja"

/-! ### FollowUpAgent (src/app/services/followup_agent.py)

`loads` models `json.loads` (returning `none` when the library raises);
`regex_array_match` models
`re.search(r'\[[^\[\]]*(?:\{[^{}]*\}[^\[\]]*)*\]', text, re.DOTALL)`
returning the matched substring. Both are parameters: every theorem below
holds for every behaviour of these library primitives. -/

/-- Python `str.find(c)`: index of the first occurrence, `-1` if absent. -/
def pyFindGo (c : Char) : List Char → Nat → Int
  | [], _ => -1
  | x :: xs, i => if x = c then (i : Int) else pyFindGo c xs (i + 1)

def pyFind (s : String) (c : Char) : Int :=
  pyFindGo c s.toList 0

/-- The depth-counting scan of strategy 2 (`for i, char in enumerate(json_str)`
with a running bracket count; the index one past the closing delimiter is
returned when the count returns to zero). -/
def depthScanGo (opCh clCh : Char) : List Char → Int → Nat → Option Nat
  | [], _, _ => none
  | c :: cs, count, i =>
    if c = opCh then depthScanGo opCh clCh cs (count + 1) (i + 1)
    else if c = clCh then
      if count - 1 = 0 then some (i + 1)
      else depthScanGo opCh clCh cs (count - 1) (i + 1)
    else depthScanGo opCh clCh cs count (i + 1)

/-- Strategy 2 of both parsers: locate the first opening delimiter, depth-count
to its closing delimiter, and return that substring. -/
def extractDelimited (opCh clCh : Char) (text : String) : Option String :=
  let idx := pyFind text opCh
  if idx = -1 then none
  else
    let rest := text.toList.drop idx.toNat
    match depthScanGo opCh clCh rest 0 0 with
    | some endIdx => some ⟨rest.take endIdx⟩
    | none => none

def team_keywords : List String :=
  ["team", "founder", "experience", "background", "execution", "leadership"]

def market_keywords : List String :=
  ["market", "competition", "customer", "demand", "size", "growth"]

def tech_keywords : List String :=
  ["technology", "product", "development", "technical", "platform", "ai", "ml"]

def business_keywords : List String :=
  ["revenue", "business model", "pricing", "cost", "financial", "funding"]

def risk_keywords : List String :=
  ["risk", "challenge", "problem", "obstacle", "threat"]

/-- `FollowUpAgent._categorize_question` (lines 275-298): keyword matching on
the lowercased question text. -/
def _categorize_question (question : String) : String :=
  let question_lower := pyLower question
  if team_keywords.any (fun k => pyContains question_lower k) then "team"
  else if market_keywords.any (fun k => pyContains question_lower k) then "market"
  else if tech_keywords.any (fun k => pyContains question_lower k) then "technology"
  else if business_keywords.any (fun k => pyContains question_lower k) then "business"
  else if risk_keywords.any (fun k => pyContains question_lower k) then "risk"
  else "general"

/-- One iteration of the `_validate_questions` loop. `none` models a raised
exception (`q.get('question')` truthy but not a string, so `.strip()` raises
and the enclosing strategy fails); `some none` models a skipped entry. -/
def validateQuestion (q : Json) : Option (Option Json) :=
  match q with
  | .obj fields =>
    match jGet fields "question" with
    | some v =>
      if jsonTruthy v then
        match v with
        | .str s => some (some (Json.obj
            [("question", .str (pyStrip s)),
             ("category", jGetD fields "category" (.str "general")),
             ("priority", jGetD fields "priority" (.str "medium")),
             ("rationale", jGetD fields "rationale" (.str "No rationale provided"))]))
        | _ => none
      else some none
    | none => some none
  | _ => some none

def validateQuestionsList : List Json → Option (List Json)
  | [] => some []
  | q :: rest => do
    let r ← validateQuestion q
    let rs ← validateQuestionsList rest
    match r with
    | some v => pure (v :: rs)
    | none => pure rs

/-- `FollowUpAgent._validate_questions` (lines 197-211). Iterating a JSON
string or object yields characters or keys (never dicts, so every entry is
skipped); iterating any other non-list raises `TypeError` (`none`). The
result is truncated to 10 entries. -/
def _validate_questions (questions : Json) : Option (List Json) :=
  match questions with
  | .arr qs => (validateQuestionsList qs).map (fun l => l.take 10)
  | .str _ => some []
  | .obj _ => some []
  | _ => none

def numberPrefixes : List String :=
  ["1.", "2.", "3.", "4.", "5.", "6.", "7.", "8.", "9.", "10."]

def startswithNumbering (line : String) : Bool :=
  numberPrefixes.any (fun p => p.toList.isPrefixOf line.toList)

/-- `FollowUpAgent._extract_questions_manually` (lines 250-273). -/
def _extract_questions_manually (text : String) : List Json :=
  let step := fun (rawLine : String) =>
    let line := pyStrip rawLine
    if line ≠ "" ∧ (pyContains line "?" ∨ startswithNumbering line) then
      let question :=
        if startswithNumbering line then
          pyStrip ⟨line.toList.drop ((pyFind line '.') + 1).toNat⟩
        else line
      if question ≠ "" ∧ 10 < question.length then
        some (Json.obj
          [("question", .str question),
           ("category", .str (_categorize_question question)),
           ("priority", .str "medium"),
           ("rationale", .str "Extracted from response")])
      else none
    else none
  ((pySplitLines text).filterMap step).take 10

/-- `FollowUpAgent._generate_fallback_questions` (lines 213-248). -/
def _generate_fallback_questions : List Json :=
  [Json.obj
      [("question", .str "What is your team\x27s relevant experience in this industry?"),
       ("category", .str "team"), ("priority", .str "high"),
       ("rationale", .str "Team experience is critical for success")],
    Json.obj
      [("question", .str "What is your total addressable market (TAM) and how did you calculate it?"),
       ("category", .str "market"), ("priority", .str "high"),
       ("rationale", .str "Market size determines investment potential")],
    Json.obj
      [("question", .str "What is your unique competitive advantage or moat?"),
       ("category", .str "technology"), ("priority", .str "high"),
       ("rationale", .str "Competitive advantage is essential for long-term success")],
    Json.obj
      [("question", .str "How do you plan to generate revenue and what are your unit economics?"),
       ("category", .str "business"), ("priority", .str "medium"),
       ("rationale", .str "Business model viability is crucial")],
    Json.obj
      [("question", .str "What are your biggest risks and how do you plan to mitigate them?"),
       ("category", .str "risk"), ("priority", .str "medium"),
       ("rationale", .str "Risk assessment is important for investment decision")]]

/-- Strategy 1 of `_parse_and_categorize_questions`: regex-bounded JSON array
extraction, strict parse, validate. -/
def qStrat1 (loads : String → Option Json) (regex_array_match : String → Option String)
    (questions_text : String) : Option (List Json) := do
  let s ← regex_array_match questions_text
  let j ← loads s
  _validate_questions j

/-- Strategy 2: depth-counting bracket extraction, strict parse, validate. -/
def qStrat2 (loads : String → Option Json) (questions_text : String) : Option (List Json) := do
  let s ← extractDelimited '[' ']' questions_text
  let j ← loads s
  _validate_questions j

/-- Strategy 3: strict parse of the whole trimmed text, validate. -/
def qStrat3 (loads : String → Option Json) (questions_text : String) : Option (List Json) := do
  let j ← loads (pyStrip questions_text)
  _validate_questions j

/-- Strategy 4: manual line-based extraction, validate. -/
def qStrat4 (questions_text : String) : Option (List Json) :=
  _validate_questions (Json.arr (_extract_questions_manually questions_text))

/-- `FollowUpAgent._parse_and_categorize_questions` (lines 129-195): the
four-strategy fallback ladder over raw model text, ending in the canned
fallback questions. -/
def _parse_and_categorize_questions (loads : String → Option Json)
    (regex_array_match : String → Option String) (questions_text : String) : List Json :=
  match qStrat1 loads regex_array_match questions_text <|>
      (qStrat2 loads questions_text <|>
        (qStrat3 loads questions_text <|> qStrat4 questions_text)) with
  | some qs => qs
  | none => _generate_fallback_questions

/-- Python `==` on the hashable JSON scalars usable as dict keys
(`True == 1` in Python, so bools and numbers compare across kinds). -/
def pyKeyEq : Json → Json → Bool
  | .null, .null => true
  | .bool a, .bool b => a == b
  | .bool a, .num b => (if a then (1 : ℚ) else 0) == b
  | .num a, .bool b => a == (if b then (1 : ℚ) else 0)
  | .num a, .num b => a == b
  | .str a, .str b => a == b
  | _, _ => false

/-- JSON arrays and objects are unhashable in Python: using one as a dict key
raises `TypeError`. -/
def isHashable : Json → Bool
  | .arr _ => false
  | .obj _ => false
  | _ => true

/-- `categories[category] = categories.get(category, 0) + 1` on an
insertion-ordered dict of counts. -/
def bumpCount (key : Json) : List (Json × Nat) → List (Json × Nat)
  | [] => [(key, 1)]
  | (k, n) :: rest =>
    if pyKeyEq k key then (k, n + 1) :: rest else (k, n) :: bumpCount key rest

/-- `FollowUpAgent._get_question_categories` (lines 300-308). `none` models
the `TypeError` raised when a question carries an unhashable category value
(or a non-dict question, on which `.get` raises). -/
def _get_question_categories : List Json → List (Json × Nat) → Option (List (Json × Nat))
  | [], acc => some acc
  | q :: rest, acc =>
    match q with
    | .obj fields =>
      let category := jGetD fields "category" (.str "general")
      if isHashable category then _get_question_categories rest (bumpCount category acc)
      else none
    | _ => none

/-- The `categories` field of the stage result: a dict of counts on success,
a literal `["error"]` list in the error branch. -/
inductive QCategories where
  | counts (entries : List (Json × Nat))
  | errlist (tags : List String)
deriving Repr

structure FollowupResult where
  followup_questions : List Json
  total_questions : Nat
  categories : QCategories
  priority_questions : List Json
deriving Repr

/-- The except-branch record of `generate_followup_questions` (lines 50-57). -/
def followupErrorRecord (e : String) : FollowupResult :=
  { followup_questions :=
      [Json.obj [("question", .str ("Error generating questions: " ++ e)),
                 ("category", .str "error")]],
    total_questions := 1,
    categories := .errlist ["error"],
    priority_questions := [] }

/-- `FollowUpAgent.generate_followup_questions` (lines 16-57). `completion`
models the OpenAI chat-completion call: `Except.error` is a raised exception,
`Except.ok` the response text. A `TypeError` from the categories dict also
lands in the outer `except`. -/
def generate_followup_questions (loads : String → Option Json)
    (regex_array_match : String → Option String)
    (completion : Except String String) : FollowupResult :=
  match completion with
  | .error e => followupErrorRecord e
  | .ok questions_text =>
    let questions := _parse_and_categorize_questions loads regex_array_match questions_text
    match _get_question_categories questions [] with
    | none => followupErrorRecord "unhashable type: \x27list\x27"
    | some cats =>
      { followup_questions := questions,
        total_questions := questions.length,
        categories := .counts cats,
        priority_questions :=
          if 3 ≤ questions.length then questions.take 3 else questions }

/-! ### CompetitorAgent parsing ladder
(src/app/services/competitor_agent.py, lines 248-362)

`regex_object_match` models
`re.search(r'\{[^{}]*(?:\{[^{}]*\}[^{}]*)*\}', text, re.DOTALL)`. -/

/-- `CompetitorAgent._validate_competitive_analysis` (lines 317-328): every
expected key is populated with a default, and the three list-typed fields are
coerced to `[]` unless the model supplied an actual list. `.get` on a
non-dict raises (`none`), failing the enclosing strategy. -/
def _validate_competitive_analysis (analysis : Json) : Option Json :=
  match analysis with
  | .obj fields =>
    let listField := fun (k : String) =>
      match jGet fields k with
      | some (Json.arr l) => Json.arr l
      | _ => Json.arr []
    some (Json.obj
      [("market_saturation", jGetD fields "market_saturation" (.str "medium")),
       ("competitive_advantage", jGetD fields "competitive_advantage" (.str "Analysis incomplete")),
       ("threat_level", jGetD fields "threat_level" (.str "medium")),
       ("key_differentiators", listField "key_differentiators"),
       ("market_gaps", listField "market_gaps"),
       ("recommendations", listField "recommendations")])
  | _ => none

/-- `CompetitorAgent._extract_competitive_analysis_manually` (lines 330-362):
keyword and line-based extraction; never raises. -/
def _extract_competitive_analysis_manually (text : String) : Json :=
  let text_lower := pyLower text
  let market_saturation :=
    if pyContains text_lower "high" ∧ pyContains text_lower "saturation" then "high"
    else if pyContains text_lower "low" ∧ pyContains text_lower "saturation" then "low"
    else "medium"
  let threat_level :=
    if pyContains text_lower "high" ∧ pyContains text_lower "threat" then "high"
    else if pyContains text_lower "low" ∧ pyContains text_lower "threat" then "low"
    else "medium"
  let advLine := (pySplitLines text).find?
    (fun line => pyContains (pyLower line) "advantage" ∨ pyContains (pyLower line) "unique")
  let competitive_advantage :=
    match advLine with
    | some line => pyStrip line
    | none => "Manual extraction required"
  Json.obj
    [("market_saturation", .str market_saturation),
     ("competitive_advantage", .str competitive_advantage),
     ("threat_level", .str threat_level),
     ("key_differentiators", .arr []),
     ("market_gaps", .arr []),
     ("recommendations", .arr [])]

/-- The final fallback record of `_parse_competitive_analysis_json`
(lines 306-315). -/
def competitiveAnalysisFallback : Json :=
  Json.obj
    [("market_saturation", .str "medium"),
     ("competitive_advantage", .str "Analysis incomplete - manual review recommended"),
     ("threat_level", .str "medium"),
     ("key_differentiators", .arr [.str "Requires manual analysis"]),
     ("market_gaps", .arr [.str "Requires manual analysis"]),
     ("recommendations", .arr [.str "Conduct manual competitive analysis"])]

/-- Strategy 1 of `_parse_competitive_analysis_json` (lines 248-315): regex-bounded
JSON object extraction, strict parse, validate. -/
def cStrat1 (loads : String → Option Json) (regex_object_match : String → Option String)
    (analysis_text : String) : Option Json := do
  let s ← regex_object_match analysis_text
  let j ← loads s
  _validate_competitive_analysis j

/-- Strategy 2: depth-counting brace extraction, strict parse, validate. -/
def cStrat2 (loads : String → Option Json) (analysis_text : String) : Option Json := do
  let s ← extractDelimited '{' '}' analysis_text
  let j ← loads s
  _validate_competitive_analysis j

/-- Strategy 3: strict parse of the whole trimmed text, validate. -/
def cStrat3 (loads : String → Option Json) (analysis_text : String) : Option Json := do
  let j ← loads (pyStrip analysis_text)
  _validate_competitive_analysis j

/-- Strategy 4: manual keyword extraction, validate. -/
def cStrat4 (analysis_text : String) : Option Json :=
  _validate_competitive_analysis (_extract_competitive_analysis_manually analysis_text)

/-- `CompetitorAgent._parse_competitive_analysis_json` (lines 248-315): the
four-strategy fallback ladder over raw model text, ending in the fixed
default record. -/
def _parse_competitive_analysis_json (loads : String → Option Json)
    (regex_object_match : String → Option String) (analysis_text : String) : Json :=
  match cStrat1 loads regex_object_match analysis_text <|>
      (cStrat2 loads analysis_text <|>
        (cStrat3 loads analysis_text <|> cStrat4 analysis_text)) with
  | some a => a
  | none => competitiveAnalysisFallback

/-! ### Shape lemmas for the parsing ladders -/

/-- A question record of the expected shape: the four expected keys, in the
order the validator emits them. -/
def questionShaped (q : Json) : Prop :=
  ∃ qt c p r, q = Json.obj
    [("question", qt), ("category", c), ("priority", p), ("rationale", r)]

/-- A competitive-analysis record of the expected shape: the six expected
keys, with the three list-typed fields actual JSON arrays. -/
def compAnalysisShaped (a : Json) : Prop :=
  ∃ ms ca tl l1 l2 l3, a = Json.obj
    [("market_saturation", ms), ("competitive_advantage", ca), ("threat_level", tl),
     ("key_differentiators", Json.arr l1), ("market_gaps", Json.arr l2),
     ("recommendations", Json.arr l3)]

/-- Accessor on a question record (`q.get(k)` for a dict, else an error). -/
def qField (k : String) (q : Json) : Option Json :=
  match q with
  | .obj f => jGet f k
  | _ => none

/-! ### EnhancedFounderSearch founder extraction
(src/app/services/enhanced_founder_search.py, lines 63-174) -/

structure FounderData where
  name : String
  role : String
  bio : String
deriving Repr, DecidableEq

/-- One iteration of the filtering loop in `_extract_founders_with_bios`
(lines 122-133). `none` models an exception inside the loop (a truthy
non-string `name`, or a non-string `role`/`bio`, makes `.strip()` raise,
sending control to the regex fallback); `some none` is a skipped entry. -/
def validFounderEntry (f : Json) : Option (Option FounderData) :=
  match f with
  | .obj fields =>
    match jGet fields "name" with
    | some v =>
      if jsonTruthy v then
        match v with
        | .str s =>
          if 2 < (pyStrip s).length ∧ (pyStrip s).length < 100 then
            match jGetD fields "role" (.str ""), jGetD fields "bio" (.str "") with
            | .str r, .str b => some (some ⟨pyStrip s, pyStrip r, pyStrip b⟩)
            | _, _ => none
          else some none
        | _ => none
      else some none
    | none => some none
  | _ => some none

def founderEntriesList : List Json → Option (List FounderData)
  | [] => some []
  | f :: rest => do
    let r ← validFounderEntry f
    let rs ← founderEntriesList rest
    match r with
    | some v => pure (v :: rs)
    | none => pure rs

/-- The JSON branch of `_extract_founders_with_bios` (lines 120-135): a
parsed list is filtered and truncated to 10; any non-list parse result
returns `[]`. -/
def founderEntriesParse (founders : Json) : Option (List FounderData) :=
  match founders with
  | .arr fs => (founderEntriesList fs).map (fun l => l.take 10)
  | _ => some []

/-- `EnhancedFounderSearch._extract_names_regex` (lines 143-174), modelled
over the candidate name list: `names` stands for the contents of the `names`
set accumulated from the two role-anchored regex patterns (`re.findall` is a
library primitive, so its output is a parameter). The validation filter and
the cap of 5 are the code of lines 163-174. -/
def _extract_names_regex (names : List String) : List FounderData :=
  ((names.filter (fun name =>
      2 < (pyStrip name).length ∧ (pyStrip name).length < 100 ∧
        (pySplitWs name).length ≤ 4)).map
    (fun name => (⟨pyStrip name, "", ""⟩ : FounderData))).take 5

/-- `EnhancedFounderSearch._extract_founders_with_bios` (lines 63-141):
model call → strict JSON parse → filter, with every failure (model call,
parse, or an exception while filtering) falling back to the regex extractor. -/
def _extract_founders_with_bios (loads : String → Option Json)
    (completion : Except String String) (regex_names : List String) : List FounderData :=
  match completion with
  | .error _ => _extract_names_regex regex_names
  | .ok founders_text =>
    match loads founders_text with
    | none => _extract_names_regex regex_names
    | some j =>
      match founderEntriesParse j with
      | some l => l
      | none => _extract_names_regex regex_names

/-! ### GitRollService.wait_for_scan_completion and founder enrichment
(src/app/services/gitroll_service.py, lines 119-143;
src/app/services/enhanced_founder_search.py, lines 176-236) -/

/-- The dict returned by `check_scan_status` (and by `wait_for_scan_completion`
on timeout); `check` is the adapter, a parameter of the model. The `user_id`
key is absent from check results and added by the enrichment code. -/
structure ScanStatus where
  success : Bool
  status : Option String
  score : Option ℚ
  og_image_score : Option ℚ
  user_id : Option String
  message : Option String
deriving Repr, DecidableEq

/-- The timeout record of `wait_for_scan_completion` (lines 140-143). -/
def scanTimeoutRecord : ScanStatus :=
  { success := false, status := none, score := none, og_image_score := none,
    user_id := none,
    message := some "Scan timeout - scan may still be processing" }

/-- The polling loop of `wait_for_scan_completion`: iteration `i` runs at
elapsed time `10*i` seconds (`time.sleep(10)` dominates the wall clock in the
model); the guard is `elapsed < max_wait_time`, so `remaining` starts at
`⌈max_wait_time / 10⌉` iterations. -/
def waitLoopGo (check : Nat → ScanStatus) : Nat → Nat → ScanStatus
  | 0, _ => scanTimeoutRecord
  | r + 1, i =>
    let status := check i
    if status.status = some "completed" then status
    else waitLoopGo check r (i + 1)

/-- `GitRollService.wait_for_scan_completion` (lines 119-143); the source
default for `max_wait_time` is 300 seconds, polling every 10 seconds. -/
def wait_for_scan_completion (check : Nat → ScanStatus) (max_wait_time : Nat) : ScanStatus :=
  waitLoopGo check ((max_wait_time + 9) / 10) 0

/-- The adapter result of `GoogleSearchService.search_person`; `none` fields
model absent dict keys. -/
structure GoogleInfo where
  linkedin : Option String
  twitter : Option String
  github : Option String
  bio : Option String
  company : Option String
  search_successful : Option Bool
deriving Repr, DecidableEq

/-- The GitHub profile dict returned by the code-hosting adapter. -/
structure GithubProfile where
  login : Option String
  bio : Option String
deriving Repr, DecidableEq

/-- `GitRollScanResponse` (src/app/models/schemas.py, lines 47-52). -/
structure GitRollScanResponse where
  success : Bool
  scan_id : Option String
  profile_url : Option String
  user_id : Option String
  message : String
deriving Repr, DecidableEq

/-- The fields of the `_score_founder` result consumed by the enrichment
(`founder_score["score"]` etc.); values are model-supplied JSON. -/
structure FounderScore where
  score : Json
  technical_score : Json
  business_score : Json
  contribution : Json
deriving Repr

/-- The enriched founder record built at lines 220-236. -/
structure FounderRecord where
  name : String
  role : String
  deck_bio : String
  linkedin : String
  twitter : String
  github : String
  bio : String
  company : String
  score : Json
  contribution : Json
  technical_score : Json
  business_score : Json
  gitroll_user_id : Option String
  gitroll_score : Option ℚ
  search_successful : Bool
deriving Repr

/-- `EnhancedFounderSearch._search_founder_info_comprehensive`
(lines 176-236), over the adapter results. Every step of the modelled body is
total, so the `except` branch (lines 238-256) is unreachable here. The
`if gitroll_info:` guard before the `user_id` assignment is always true when
a wait result exists, because both possible wait results are non-empty dicts. -/
def _search_founder_info_comprehensive (name company deck_bio role : String)
    (google_info : GoogleInfo) (github_info : Option GithubProfile)
    (gitroll_result : GitRollScanResponse) (check : Nat → ScanStatus)
    (founder_score : FounderScore) : FounderRecord :=
  let gitroll_info : Option ScanStatus :=
    match github_info with
    | some g =>
      if pyTruthyStr g.login then
        if gitroll_result.success ∧ pyTruthyStr gitroll_result.scan_id then
          let w := wait_for_scan_completion check 300
          some { w with user_id := gitroll_result.user_id }
        else none
      else none
    | none => none
  { name := name
    role := role
    deck_bio := deck_bio
    linkedin := google_info.linkedin.getD ""
    twitter := google_info.twitter.getD ""
    github :=
      let gh := google_info.github.getD ""
      if gh ≠ "" then gh
      else
        match github_info with
        | some g => g.login.getD ""
        | none => ""
    bio :=
      match google_info.bio with
      | some b => if b ≠ "" then b else deck_bio
      | none => deck_bio
    company := google_info.company.getD company
    score := founder_score.score
    contribution := founder_score.contribution
    technical_score := founder_score.technical_score
    business_score := founder_score.business_score
    gitroll_user_id :=
      match gitroll_info with
      | some gi => if gi.success then gi.user_id else none
      | none => none
    gitroll_score :=
      match gitroll_info with
      | some gi => if gi.success then gi.score else none
      | none => none
    search_successful := google_info.search_successful.getD false }

/-! ### analyze_project_upload
(src/app/routers/analysis_router.py, lines 73-312)

Each stage service wraps its body in `try ... except` returning a typed
default; the router model therefore takes each stage body as an
`Except String _` and absorbs its failure through `runStage`, exactly as the
services do. The text extractors and the OpenAI-backed stage bodies are the
external collaborators of the model. -/

/-- Generic split on a separator character, keeping empty pieces
(Python `str.split(sep)`). -/
def charSplitGo (sep : Char) : List Char → List Char → List (List Char)
  | [], acc => [acc.reverse]
  | c :: cs, acc =>
    if c = sep then acc.reverse :: charSplitGo sep cs []
    else charSplitGo sep cs (c :: acc)

def pySplitChar (s : String) (sep : Char) : List String :=
  (charSplitGo sep s.toList []).map (fun cs => ⟨cs⟩)

/-- `file.filename.lower().split('.')[-1]` (line 95). -/
def pyExt (filename : String) : String :=
  ((pySplitChar (pyLower filename) '.').getLast?).getD ""

/-- The extensions handled by the extraction dispatch (lines 101-134). -/
def supportedExts : List String := ["pdf", "pptx", "docx", "txt", "md"]

/-- `try body except` at a stage-service boundary. -/
def runStage {α : Type} (body : Except String α) (onError : String → α) : α :=
  match body with
  | .ok a => a
  | .error e => onError e

/-- `ProjectSummary` as built by `SimpleAnalysisService` (the fields the
router consumes). -/
structure ProjectSummary where
  project_name : String
  description : String
  problem_statement : String
  solution : String
  target_market : String
  business_model : String
  team_info : List Json
deriving Repr

/-- The `except` branch of `analyze_project_content`
(simple_analysis_service.py, lines 106-118). -/
def analysisFailedSummary (e : String) : ProjectSummary :=
  ⟨"Analysis Failed", "Error during analysis: " ++ e, "", "", "", "", []⟩

/-- The `except` branch of `ViabilityAgent.assess_viability` (lines 45-52). -/
def viabilityErrorDefault (e : String) : Json :=
  Json.obj
    [("score", .num 5), ("explanation", .str ("Error in evaluation: " ++ e)),
     ("risk_factors", .arr [.str "Technical error"]), ("strengths", .arr [])]

/-- The `except` branch of `extract_and_search_founders`
(enhanced_founder_search.py, lines 52-61). -/
def founderSearchErrorDefault (e : String) : List Json :=
  [Json.obj
    [("name", .str "Error in search"), ("linkedin", .str ""), ("github", .str ""),
     ("bio", .str ("Error: " ++ e)), ("score", .num 0),
     ("contribution", .str "Error occurred during search")]]

/-- The `except` branch of `analyze_github_repos` (github_analyzer.py,
lines 41-47). -/
def githubAnalyzerErrorDefault (e : String) : List Json :=
  [Json.obj
    [("repo", .str "Error en análisis"), ("activity", .str "Error"),
     ("main_lang", .str "N/A"), ("description", .str ("Error: " ++ e))]]

/-- The `except` branch of `generate_simple_summary` (summary_generator.py,
lines 73-75). -/
def summaryErrorDefault (e : String) : String :=
  "Error generating summary: " ++ e

/-- The `except` branch of `analyze_competitors` (competitor_agent.py,
lines 56-64). -/
def competitorErrorDefault (e : String) : Json :=
  Json.obj
    [("competitors", .arr []), ("competitive_analysis", Json.obj [("error", .str e)]),
     ("market_saturation", .str "unknown"), ("competitive_advantage", .str "Analysis failed"),
     ("threat_level", .str "unknown")]

/-- The `except` branch of `analyze_compliance_risks` (compliance_agent.py,
lines 55-68). -/
def complianceErrorDefault (e : String) : Json :=
  Json.obj
    [("compliance_risks", .arr [.str ("Error in analysis: " ++ e)]),
     ("regulatory_requirements", .arr []), ("legal_risks", .arr []),
     ("data_privacy_concerns", .arr []), ("compliance_score", .num 5),
     ("risk_level", .str "unknown"),
     ("recommendations", .arr [.str "Consult with legal experts"]),
     ("required_licenses", .arr []), ("jurisdictions", .arr [])]

/-- `.get` with default on a stage-result dict. -/
def jobjGetD (j : Json) (k : String) (default : Json) : Json :=
  match j with
  | .obj fields => jGetD fields k default
  | _ => default

/-- The response of the upload endpoint; the error envelopes carry only
`status`/`message`/`analysis_completed`, so the payload fields are optional. -/
structure UploadResponse where
  status : String
  message : String
  analysis_completed : Bool
  project_name : Option String
  summary : Option String
  viability_score : Option Json
  founders : Option (List Json)
  github_analysis : Option (List Json)
  market_saturation : Option Json
  compliance_score : Option Json
  followup_total : Option Nat
deriving Repr

/-- An input-stage error envelope (lines 135-149 and the outer except at
lines 304-312). -/
def uploadErrorResponse (msg : String) : UploadResponse :=
  { status := "error", message := msg, analysis_completed := false,
    project_name := none, summary := none, viability_score := none,
    founders := none, github_analysis := none, market_saturation := none,
    compliance_score := none, followup_total := none }

/-- `analyze_project_upload` (analysis_router.py, lines 73-312): extension
dispatch, extraction, empty-text check, then the eight stages with their
failures absorbed into typed defaults, assembled into the success response. -/
def analyze_project_upload (filename : String)
    (extract : String → Except String String)
    (project_body : Except String ProjectSummary)
    (viability_body : Except String Json)
    (founders_body : Except String (List Json))
    (github_body : Except String (List Json))
    (summary_body : Except String String)
    (competitor_body : Except String Json)
    (compliance_body : Except String Json)
    (followup : FollowupResult) : UploadResponse :=
  let ext := pyExt filename
  if ext ∉ supportedExts then
    uploadErrorResponse "Unsupported file type. Use PDF, PPTX, DOCX, TXT or MD."
  else
    match extract ext with
    | .error e => uploadErrorResponse ("Error during analysis: " ++ e)
    | .ok deck_content =>
      if pyStrip deck_content = "" then
        uploadErrorResponse "Could not extract text from file."
      else
        let project_summary := runStage project_body analysisFailedSummary
        let viability_assessment := runStage viability_body viabilityErrorDefault
        let founders := runStage founders_body founderSearchErrorDefault
        let github_repos := runStage github_body githubAnalyzerErrorDefault
        let simple_summary := runStage summary_body summaryErrorDefault
        let competitor_analysis := runStage competitor_body competitorErrorDefault
        let compliance_analysis := runStage compliance_body complianceErrorDefault
        { status := "success",
          message := "Complete analysis performed for: " ++ project_summary.project_name,
          analysis_completed := true,
          project_name := some project_summary.project_name,
          summary := some simple_summary,
          viability_score := some (jobjGetD viability_assessment "score" (.num 5)),
          founders := some founders,
          github_analysis := some github_repos,
          market_saturation :=
            some (jobjGetD competitor_analysis "market_saturation" (.str "unknown")),
          compliance_score :=
            some (jobjGetD compliance_analysis "compliance_score" (.num 5)),
          followup_total := some followup.total_questions }

/-! ### Dedup lemmas -/

theorem dedupGo_sublist (seen : List String) (l : List Competitor) :
    (dedupGo seen l).Sublist l := by
  induction l generalizing seen with
  | nil => simp [dedupGo]
  | cons c rest ih =>
    simp only [dedupGo]
    by_cases h : competitorKey c ≠ "" ∧ competitorKey c ∉ seen
    · rw [if_pos h]
      exact List.Sublist.cons₂ c (ih _)
    · rw [if_neg h]
      exact List.Sublist.cons c (ih _)

theorem dedupGo_mem_key (seen : List String) (l : List Competitor) :
    ∀ c ∈ dedupGo seen l, competitorKey c ∉ seen ∧ competitorKey c ≠ "" := by
  induction l generalizing seen with
  | nil => simp [dedupGo]
  | cons c rest ih =>
    simp only [dedupGo]
    by_cases h : competitorKey c ≠ "" ∧ competitorKey c ∉ seen
    · rw [if_pos h]
      intro d hd
      rcases List.mem_cons.mp hd with rfl | hd
      · exact ⟨h.2, h.1⟩
      · have := ih _ d hd
        exact ⟨fun hs => this.1 (List.mem_cons_of_mem _ hs), this.2⟩
    · rw [if_neg h]
      intro d hd
      exact ih _ d hd

theorem dedupGo_keys_nodup (seen : List String) (l : List Competitor) :
    ((dedupGo seen l).map competitorKey).Nodup := by
  induction l generalizing seen with
  | nil => simp [dedupGo]
  | cons c rest ih =>
    simp only [dedupGo]
    by_cases h : competitorKey c ≠ "" ∧ competitorKey c ∉ seen
    · rw [if_pos h]
      simp only [List.map_cons, List.nodup_cons]
      refine ⟨fun hmem => ?_, ih _⟩
      obtain ⟨d, hd, hkey⟩ := List.mem_map.mp hmem
      exact (dedupGo_mem_key _ _ d hd).1 (by simp [hkey])
    · rw [if_neg h]
      exact ih _

theorem dedupGo_complete (seen : List String) (l : List Competitor) :
    ∀ c ∈ l, competitorKey c ≠ "" → competitorKey c ∉ seen →
      ∃ d ∈ dedupGo seen l, competitorKey d = competitorKey c := by
  induction l generalizing seen with
  | nil => simp
  | cons c rest ih =>
    intro d hd hne hns
    simp only [dedupGo]
    rcases List.mem_cons.mp hd with rfl | hd
    · rw [if_pos ⟨hne, hns⟩]
      exact ⟨d, List.mem_cons_self _ _, rfl⟩
    · by_cases h : competitorKey c ≠ "" ∧ competitorKey c ∉ seen
      · rw [if_pos h]
        by_cases hkey : competitorKey d = competitorKey c
        · exact ⟨c, List.mem_cons_self _ _, hkey.symm⟩
        · obtain ⟨e, he, hke⟩ := ih (competitorKey c :: seen) d hd hne
            (by simp [hns, hkey])
          exact ⟨e, List.mem_cons_of_mem _ he, hke⟩
      · rw [if_neg h]
        exact ih seen d hd hne hns

theorem dedupGo_first_occurrence (seen : List String) (l : List Competitor) :
    ∀ c ∈ dedupGo seen l,
      l.find? (fun d => competitorKey d == competitorKey c) = some c := by
  induction l generalizing seen with
  | nil => simp [dedupGo]
  | cons c rest ih =>
    simp only [dedupGo]
    by_cases h : competitorKey c ≠ "" ∧ competitorKey c ∉ seen
    · rw [if_pos h]
      intro d hd
      rcases List.mem_cons.mp hd with rfl | hd
      · simp [List.find?]
      · have hkey := (dedupGo_mem_key _ _ d hd).1
        have hne : (competitorKey c == competitorKey d) = false := by
          rw [beq_eq_false_iff_ne]
          intro he
          exact hkey (by simp [← he])
        rw [List.find?, hne]
        exact ih _ d hd
    · rw [if_neg h]
      intro d hd
      have hmem := dedupGo_mem_key seen rest d hd
      have hne : (competitorKey c == competitorKey d) = false := by
        rw [beq_eq_false_iff_ne]
        intro he
        rcases not_and_or.mp h with h1 | h2
        · exact hmem.2 (by rw [← he]; simpa using h1)
        · exact hmem.1 (by rw [← he]; simpa using h2)
      rw [List.find?, hne]
      exact ih _ d hd

theorem dedupGo_of_clean (seen : List String) (l : List Competitor)
    (hkeys : ∀ c ∈ l, competitorKey c ≠ "" ∧ competitorKey c ∉ seen)
    (hnodup : (l.map competitorKey).Nodup) :
    dedupGo seen l = l := by
  induction l generalizing seen with
  | nil => simp [dedupGo]
  | cons c rest ih =>
    simp only [dedupGo]
    have hc := hkeys c (List.mem_cons_self _ _)
    rw [if_pos ⟨hc.1, hc.2⟩]
    congr 1
    apply ih
    · intro d hd
      have hdk := hkeys d (List.mem_cons_of_mem _ hd)
      refine ⟨hdk.1, ?_⟩
      simp only [List.mem_cons, not_or]
      refine ⟨?_, hdk.2⟩
      intro he
      have hmm : competitorKey c ∈ rest.map competitorKey :=
        List.mem_map.mpr ⟨d, hd, he⟩
      exact (List.nodup_cons.mp (by simpa using hnodup)).1 hmm
    · exact (List.nodup_cons.mp (by simpa using hnodup)).2

/-- C10: `_deduplicate_competitors` returns a sublist (original relative
order), with pairwise-distinct lowercased-and-trimmed name keys, dropping
records whose name key is empty or missing, keeping the first occurrence of
each name, and it is idempotent. -/
theorem deduplicate_competitors_spec (l : List Competitor) :
    (_deduplicate_competitors l).Sublist l ∧
    ((_deduplicate_competitors l).map competitorKey).Nodup ∧
    (∀ c ∈ _deduplicate_competitors l, competitorKey c ≠ "") ∧
    (∀ c ∈ l, competitorKey c ≠ "" →
      ∃ d ∈ _deduplicate_competitors l, competitorKey d = competitorKey c) ∧
    (∀ c ∈ _deduplicate_competitors l,
      l.find? (fun d => competitorKey d == competitorKey c) = some c) ∧
    _deduplicate_competitors (_deduplicate_competitors l) = _deduplicate_competitors l := by
  refine ⟨dedupGo_sublist [] l, dedupGo_keys_nodup [] l,
    fun c hc => (dedupGo_mem_key [] l c hc).2,
    fun c hc hne => dedupGo_complete [] l c hc hne (by simp),
    dedupGo_first_occurrence [] l, ?_⟩
  apply dedupGo_of_clean
  · intro c hc
    exact ⟨(dedupGo_mem_key [] l c hc).2, by simp⟩
  · exact dedupGo_keys_nodup [] l

/-- C10 witness: the completeness clause applied at a concrete list (a record
whose name differs only in case and surrounding blanks is a duplicate). -/
theorem deduplicate_competitors_spec_witness :
    competitorKey ⟨some " Acme ", "d1", "w1"⟩ ≠ "" ∧
    ∃ d ∈ _deduplicate_competitors
        [⟨some " Acme ", "d1", "w1"⟩, ⟨some "ACME", "d2", "w2"⟩, ⟨none, "d3", "w3"⟩],
      competitorKey d = competitorKey ⟨some " Acme ", "d1", "w1"⟩ :=
  ⟨by decide,
    (deduplicate_competitors_spec
        [⟨some " Acme ", "d1", "w1"⟩, ⟨some "ACME", "d2", "w2"⟩, ⟨none, "d3", "w3"⟩]).2.2.2.1
      ⟨some " Acme ", "d1", "w1"⟩ (by simp) (by decide)⟩

/-- C2: market saturation is a pure function of competitor count with the
stated bucket boundaries (0 and 1-3 → low, 4-8 → medium, 9+ → high). -/
theorem market_saturation_buckets (n : Nat) :
    (n ≤ 3 → _calculate_market_saturation n = "low") ∧
    (4 ≤ n → n ≤ 8 → _calculate_market_saturation n = "medium") ∧
    (9 ≤ n → _calculate_market_saturation n = "high") ∧
    _calculate_market_saturation 0 = "low" ∧
    _calculate_market_saturation 3 = "low" ∧
    _calculate_market_saturation 4 = "medium" ∧
    _calculate_market_saturation 8 = "medium" ∧
    _calculate_market_saturation 9 = "high" := by
  refine ⟨fun h => ?_, fun h4 h8 => ?_, fun h9 => ?_, rfl, rfl, rfl, rfl, rfl⟩ <;>
    · unfold _calculate_market_saturation
      repeat' split
      all_goals first | rfl | omega

/-- C2 witness: the medium bucket at the lower boundary value 4. -/
theorem market_saturation_buckets_witness :
    (4 : Nat) ≤ 4 ∧ _calculate_market_saturation 4 = "medium" :=
  ⟨by omega, (market_saturation_buckets 4).2.1 (by omega) (by omega)⟩

/-- C7: repository activity classification is a pure function of the days
since the last update, with buckets ≤7, 8-30, 31-90, >90 and an unknown
bucket for a missing or unparseable timestamp. -/
theorem assess_activity_buckets (parse_days : String → Option Int) (updated_at : String) :
    _assess_activity parse_days "" = "Desconocido" ∧
    (parse_days updated_at = none → _assess_activity parse_days updated_at = "Desconocido") ∧
    (∀ d : Int, updated_at ≠ "" → parse_days updated_at = some d →
      (d ≤ 7 → _assess_activity parse_days updated_at = "Muy Alta") ∧
      (8 ≤ d → d ≤ 30 → _assess_activity parse_days updated_at = "Alta") ∧
      (31 ≤ d → d ≤ 90 → _assess_activity parse_days updated_at = "Media") ∧
      (91 ≤ d → _assess_activity parse_days updated_at = "Baja")) := by
  refine ⟨rfl, fun hnone => ?_, fun d hne hd => ?_⟩
  · unfold _assess_activity
    split
    · rfl
    · rw [hnone]
  · refine ⟨fun h7 => ?_, fun h8 h30 => ?_, fun h31 h90 => ?_, fun h91 => ?_⟩ <;>
      · unfold _assess_activity
        rw [if_neg hne, hd]
        show (if d ≤ 7 then "Muy Alta" else if d ≤ 30 then "Alta"
          else if d ≤ 90 then "Media" else "Baja") = _
        repeat' split
        all_goals first | rfl | omega

/-- C7 witness: the boundary day 8 lands in the second bucket, and a
timestamp the datetime parser rejects lands in the unknown bucket. -/
theorem assess_activity_buckets_witness :
    _assess_activity (fun _ => some 8) "2024-01-01T00:00:00Z" = "Alta" ∧
    _assess_activity (fun _ => none) "not-a-date" = "Desconocido" :=
  ⟨((assess_activity_buckets (fun _ => some 8) "2024-01-01T00:00:00Z").2.2 8
      (by decide) rfl).2.1 (by omega) (by omega),
    (assess_activity_buckets (fun _ => none) "not-a-date").2.1 rfl⟩

theorem orElse_factor {α : Type} {x y : Option α} {a : α} (h : (x <|> y) = some a) :
    x = some a ∨ y = some a := by
  cases x with
  | none => right; simpa using h
  | some b => left; simpa using h

theorem strat_factor {α : Type} (r : Option String) (loads : String → Option Json)
    (f : Json → Option α) (a : α)
    (h : (do
        let s ← r
        let j ← loads s
        f j) = some a) :
    ∃ jin, f jin = some a := by
  cases r with
  | none => simp at h
  | some s =>
    cases hl : loads s with
    | none => rw [Option.bind_eq_bind] at h; simp [hl] at h
    | some j =>
      refine ⟨j, ?_⟩
      rw [Option.bind_eq_bind] at h
      simpa [hl] using h

theorem strat_factor2 {α : Type} (o : Option Json) (f : Json → Option α) (a : α)
    (h : (do
        let j ← o
        f j) = some a) :
    ∃ jin, f jin = some a := by
  cases o with
  | none => simp at h
  | some j =>
    refine ⟨j, ?_⟩
    rw [Option.bind_eq_bind] at h
    simpa using h

theorem validate_comp_shape (j a : Json) (h : _validate_competitive_analysis j = some a) :
    compAnalysisShaped a := by
  cases j with
  | null => simp [_validate_competitive_analysis] at h
  | bool b => simp [_validate_competitive_analysis] at h
  | num q => simp [_validate_competitive_analysis] at h
  | str s => simp [_validate_competitive_analysis] at h
  | arr l => simp [_validate_competitive_analysis] at h
  | obj fields =>
    have hl : ∀ k : String, ∃ l, (match jGet fields k with
        | some (Json.arr l) => Json.arr l
        | _ => Json.arr []) = Json.arr l := by
      intro k
      cases hk : jGet fields k with
      | none => exact ⟨[], rfl⟩
      | some v => cases v <;> exact ⟨_, rfl⟩
    obtain ⟨l1, h1⟩ := hl "key_differentiators"
    obtain ⟨l2, h2⟩ := hl "market_gaps"
    obtain ⟨l3, h3⟩ := hl "recommendations"
    simp only [_validate_competitive_analysis, Option.some.injEq] at h
    rw [← h]
    exact ⟨_, _, _, l1, l2, l3, by rw [h1, h2, h3]⟩

theorem validateQuestion_shape (q v : Json) (h : validateQuestion q = some (some v)) :
    questionShaped v := by
  cases q with
  | null => simp [validateQuestion] at h
  | bool b => simp [validateQuestion] at h
  | num n => simp [validateQuestion] at h
  | str s => simp [validateQuestion] at h
  | arr l => simp [validateQuestion] at h
  | obj fields =>
    simp only [validateQuestion] at h
    cases hq : jGet fields "question" with
    | none => rw [hq] at h; simp at h
    | some w =>
      rw [hq] at h
      cases w with
      | str s =>
        by_cases hs : jsonTruthy (Json.str s)
        · simp only [hs, if_true] at h
          simp only [Option.some.injEq] at h
          exact ⟨_, _, _, _, h.symm⟩
        · simp only [hs, if_false] at h
          simp at h
      | null => simp at h
      | bool b =>
        by_cases hs : jsonTruthy (Json.bool b)
        · simp only [hs, if_true] at h; simp at h
        · simp only [hs, if_false] at h; simp at h
      | num n =>
        by_cases hs : jsonTruthy (Json.num n)
        · simp only [hs, if_true] at h; simp at h
        · simp only [hs, if_false] at h; simp at h
      | arr l =>
        by_cases hs : jsonTruthy (Json.arr l)
        · simp only [hs, if_true] at h; simp at h
        · simp only [hs, if_false] at h; simp at h
      | obj l =>
        by_cases hs : jsonTruthy (Json.obj l)
        · simp only [hs, if_true] at h; simp at h
        · simp only [hs, if_false] at h; simp at h

theorem validateQuestionsList_shape (qs : List Json) (l : List Json)
    (h : validateQuestionsList qs = some l) : ∀ v ∈ l, questionShaped v := by
  induction qs generalizing l with
  | nil =>
    simp only [validateQuestionsList, Option.some.injEq] at h
    subst h; simp
  | cons q rest ih =>
    simp only [validateQuestionsList, Option.bind_eq_bind] at h
    cases hq : validateQuestion q with
    | none => rw [hq] at h; simp at h
    | some r =>
      rw [hq] at h
      cases hr : validateQuestionsList rest with
      | none => rw [hr] at h; simp at h
      | some rs =>
        rw [hr] at h
        cases r with
        | none =>
          simp only [Option.some_bind, Option.pure_def, Option.some.injEq] at h
          subst h; exact ih rs hr
        | some v =>
          simp only [Option.some_bind, Option.pure_def, Option.some.injEq] at h
          subst h
          intro w hw
          rcases List.mem_cons.mp hw with rfl | hw
          · exact validateQuestion_shape q w hq
          · exact ih rs hr w hw

theorem validate_questions_shape (j : Json) (l : List Json)
    (h : _validate_questions j = some l) : ∀ v ∈ l, questionShaped v := by
  cases j with
  | arr qs =>
    simp only [_validate_questions, Option.map_eq_map] at h
    cases hv : validateQuestionsList qs with
    | none => rw [hv] at h; simp at h
    | some l0 =>
      rw [hv] at h
      obtain rfl : l0.take 10 = l := Option.some.inj h
      intro v hvmem
      exact validateQuestionsList_shape qs l0 hv v (List.mem_of_mem_take hvmem)
  | str s =>
    simp only [_validate_questions, Option.some.injEq] at h
    subst h; simp
  | obj fields =>
    simp only [_validate_questions, Option.some.injEq] at h
    subst h; simp
  | null => simp [_validate_questions] at h
  | bool b => simp [_validate_questions] at h
  | num n => simp [_validate_questions] at h

theorem validate_questions_length (j : Json) (l : List Json)
    (h : _validate_questions j = some l) : l.length ≤ 10 := by
  cases j with
  | arr qs =>
    simp only [_validate_questions, Option.map_eq_map] at h
    cases hv : validateQuestionsList qs with
    | none => rw [hv] at h; simp at h
    | some l0 =>
      rw [hv] at h
      obtain rfl : l0.take 10 = l := Option.some.inj h
      exact List.length_take_le 10 l0
  | str s =>
    simp only [_validate_questions, Option.some.injEq] at h
    subst h; simp
  | obj fields =>
    simp only [_validate_questions, Option.some.injEq] at h
    subst h; simp
  | null => simp [_validate_questions] at h
  | bool b => simp [_validate_questions] at h
  | num n => simp [_validate_questions] at h

theorem fallback_questions_shape : ∀ v ∈ _generate_fallback_questions, questionShaped v := by
  intro v hv
  simp only [_generate_fallback_questions, List.mem_cons, List.not_mem_nil, or_false] at hv
  rcases hv with rfl | rfl | rfl | rfl | rfl <;> exact ⟨_, _, _, _, rfl⟩

theorem parse_questions_shape (loads : String → Option Json)
    (regex_array_match : String → Option String) (text : String) :
    ∀ v ∈ _parse_and_categorize_questions loads regex_array_match text, questionShaped v := by
  unfold _parse_and_categorize_questions
  cases hS : qStrat1 loads regex_array_match text <|>
      (qStrat2 loads text <|> (qStrat3 loads text <|> qStrat4 text)) with
  | none => exact fallback_questions_shape
  | some qs =>
    have hval : ∃ jin, _validate_questions jin = some qs := by
      rcases orElse_factor hS with h1 | h23
      · exact strat_factor _ loads _ qs h1
      rcases orElse_factor h23 with h2 | h34
      · exact strat_factor _ loads _ qs h2
      rcases orElse_factor h34 with h3 | h4
      · exact strat_factor2 _ _ qs h3
      · exact ⟨_, h4⟩
    obtain ⟨jin, hjin⟩ := hval
    exact validate_questions_shape jin qs hjin

theorem parse_questions_length (loads : String → Option Json)
    (regex_array_match : String → Option String) (text : String) :
    (_parse_and_categorize_questions loads regex_array_match text).length ≤ 10 := by
  unfold _parse_and_categorize_questions
  cases hS : qStrat1 loads regex_array_match text <|>
      (qStrat2 loads text <|> (qStrat3 loads text <|> qStrat4 text)) with
  | none => simp [_generate_fallback_questions]
  | some qs =>
    have hval : ∃ jin, _validate_questions jin = some qs := by
      rcases orElse_factor hS with h1 | h23
      · exact strat_factor _ loads _ qs h1
      rcases orElse_factor h23 with h2 | h34
      · exact strat_factor _ loads _ qs h2
      rcases orElse_factor h34 with h3 | h4
      · exact strat_factor2 _ _ qs h3
      · exact ⟨_, h4⟩
    obtain ⟨jin, hjin⟩ := hval
    exact validate_questions_length jin qs hjin

theorem parse_comp_shape (loads : String → Option Json)
    (regex_object_match : String → Option String) (text : String) :
    compAnalysisShaped (_parse_competitive_analysis_json loads regex_object_match text) := by
  unfold _parse_competitive_analysis_json
  cases hS : cStrat1 loads regex_object_match text <|>
      (cStrat2 loads text <|> (cStrat3 loads text <|> cStrat4 text)) with
  | none => exact ⟨_, _, _, _, _, _, rfl⟩
  | some a =>
    have hval : ∃ jin, _validate_competitive_analysis jin = some a := by
      rcases orElse_factor hS with h1 | h23
      · exact strat_factor _ loads _ a h1
      rcases orElse_factor h23 with h2 | h34
      · exact strat_factor _ loads _ a h2
      rcases orElse_factor h34 with h3 | h4
      · exact strat_factor2 _ _ a h3
      · exact ⟨_, h4⟩
    obtain ⟨jin, hjin⟩ := hval
    exact validate_comp_shape jin a hjin

/-- C1: for every raw model text and every behaviour of the `json.loads` /
`re.search` library primitives, both response parsers are total and return a
value of the expected shape: the competitor parser an object carrying all six
expected keys with the three list-typed fields actual JSON arrays, and the
follow-up parser a list each of whose members carries the four expected keys.
The ordered fallback strategies are tried in turn (an earlier success is
returned as-is) and, when all four strategies fail, the fixed typed default
is returned. -/
theorem response_parsers_total_shape (loads : String → Option Json)
    (regex_object_match regex_array_match : String → Option String) (text : String) :
    compAnalysisShaped (_parse_competitive_analysis_json loads regex_object_match text) ∧
    (∀ v ∈ _parse_and_categorize_questions loads regex_array_match text, questionShaped v) ∧
    (∀ a, cStrat1 loads regex_object_match text = some a →
      _parse_competitive_analysis_json loads regex_object_match text = a) ∧
    (∀ qs, qStrat1 loads regex_array_match text = some qs →
      _parse_and_categorize_questions loads regex_array_match text = qs) ∧
    (cStrat1 loads regex_object_match text = none → cStrat2 loads text = none →
      cStrat3 loads text = none → cStrat4 text = none →
      _parse_competitive_analysis_json loads regex_object_match text
        = competitiveAnalysisFallback) ∧
    (qStrat1 loads regex_array_match text = none → qStrat2 loads text = none →
      qStrat3 loads text = none → qStrat4 text = none →
      _parse_and_categorize_questions loads regex_array_match text
        = _generate_fallback_questions) := by
  refine ⟨parse_comp_shape loads regex_object_match text,
    parse_questions_shape loads regex_array_match text,
    fun a h1 => ?_, fun qs h1 => ?_,
    fun h1 h2 h3 h4 => ?_, fun h1 h2 h3 h4 => ?_⟩
  · simp [_parse_competitive_analysis_json, h1]
  · simp [_parse_and_categorize_questions, h1]
  · simp [_parse_competitive_analysis_json, h1, h2, h3, h4]
  · simp [_parse_and_categorize_questions, h1, h2, h3, h4]

/-- C1 witness: a successful first strategy is returned as-is (the library
primitives instantiated with concrete behaviours, the validator filling every
default on an empty object). -/
theorem response_parsers_total_shape_witness :
    cStrat1 (fun _ => some (Json.obj [])) (fun _ => some "x") "t"
      = some (Json.obj
        [("market_saturation", .str "medium"),
         ("competitive_advantage", .str "Analysis incomplete"),
         ("threat_level", .str "medium"),
         ("key_differentiators", .arr []),
         ("market_gaps", .arr []),
         ("recommendations", .arr [])]) ∧
    _parse_competitive_analysis_json (fun _ => some (Json.obj [])) (fun _ => some "x") "t"
      = Json.obj
        [("market_saturation", .str "medium"),
         ("competitive_advantage", .str "Analysis incomplete"),
         ("threat_level", .str "medium"),
         ("key_differentiators", .arr []),
         ("market_gaps", .arr []),
         ("recommendations", .arr [])] :=
  ⟨rfl,
    (response_parsers_total_shape (fun _ => some (Json.obj [])) (fun _ => some "x")
        (fun _ => some "x") "t").2.2.1 _ rfl⟩

/-- C3 (amended): the validated question list always has length at most 10,
as does the parser output, and — provided the categories-count dict can be
built, i.e. every retained question carries a hashable category value (always
the case for string categories) — the stage emits the parsed list unchanged
with `priority_questions` exactly its first `min(3, len)` elements in
original order. -/
theorem followup_cap_and_priority (loads : String → Option Json)
    (regex_array_match : String → Option String) (text : String) (j : Json) :
    (∀ l, _validate_questions j = some l → l.length ≤ 10) ∧
    (_parse_and_categorize_questions loads regex_array_match text).length ≤ 10 ∧
    (∀ cats, _get_question_categories
        (_parse_and_categorize_questions loads regex_array_match text) [] = some cats →
      (generate_followup_questions loads regex_array_match (.ok text)).followup_questions
        = _parse_and_categorize_questions loads regex_array_match text ∧
      (generate_followup_questions loads regex_array_match (.ok text)).priority_questions
        = (_parse_and_categorize_questions loads regex_array_match text).take 3) := by
  refine ⟨fun l h => validate_questions_length j l h,
    parse_questions_length loads regex_array_match text, fun cats hcats => ?_⟩
  simp only [generate_followup_questions]
  rw [hcats]
  refine ⟨rfl, ?_⟩
  show (if 3 ≤ (_parse_and_categorize_questions loads regex_array_match text).length
    then (_parse_and_categorize_questions loads regex_array_match text).take 3
    else _parse_and_categorize_questions loads regex_array_match text) = _
  by_cases h3 : 3 ≤ (_parse_and_categorize_questions loads regex_array_match text).length
  · rw [if_pos h3]
  · rw [if_neg h3, List.take_of_length_le (by omega)]

/-- C3 counterexample: a response the model could well produce — a JSON array
whose single question carries an unhashable (list-valued) `category` — is
parsed and validated successfully, but building the categories dict raises
`TypeError`, so the stage lands in the error branch: `priority_questions` is
`[]`, not the first `min(3, 1)` elements of the validated list. The `loads`
and regex stubs reproduce exactly what `json.loads` and `re.search` return on
this text. -/
theorem followup_priority_counterexample :
    (generate_followup_questions
        (fun s => if s = "[\x7b\"question\": \"Why will this team fail?\", \"category\": [\"team\"]\x7d]"
          then some (Json.arr [Json.obj
            [("question", .str "Why will this team fail?"),
             ("category", Json.arr [.str "team"])]])
          else none)
        (fun s => some s)
        (.ok "[\x7b\"question\": \"Why will this team fail?\", \"category\": [\"team\"]\x7d]")).priority_questions
      = [] ∧
    (_parse_and_categorize_questions
        (fun s => if s = "[\x7b\"question\": \"Why will this team fail?\", \"category\": [\"team\"]\x7d]"
          then some (Json.arr [Json.obj
            [("question", .str "Why will this team fail?"),
             ("category", Json.arr [.str "team"])]])
          else none)
        (fun s => some s)
        "[\x7b\"question\": \"Why will this team fail?\", \"category\": [\"team\"]\x7d]").length = 1 := by
  exact ⟨rfl, rfl⟩

/-- C3 witness: with string categories the success branch applies and
`priority_questions` is the positional prefix of the parsed list. -/
theorem followup_cap_and_priority_witness :
    (generate_followup_questions
        (fun _ => some (Json.arr [Json.obj [("question", Json.str "Is this scalable?")]]))
        (fun _ => some "m") (.ok "t")).priority_questions
      = (_parse_and_categorize_questions
          (fun _ => some (Json.arr [Json.obj [("question", Json.str "Is this scalable?")]]))
          (fun _ => some "m") "t").take 3 :=
  ((followup_cap_and_priority
      (fun _ => some (Json.arr [Json.obj [("question", Json.str "Is this scalable?")]]))
      (fun _ => some "m") "t" Json.null).2.2
    [(Json.str "general", 1)] rfl).2

/-! ### Totality of the manual-extraction strategy -/

theorem manual_extraction_entry (text : String) :
    ∀ q ∈ _extract_questions_manually text, ∃ fields s, q = Json.obj fields ∧
      jGet fields "question" = some (Json.str s) ∧
      jGet fields "category" = some (Json.str (_categorize_question s)) := by
  intro q hq
  unfold _extract_questions_manually at hq
  obtain ⟨line, hline, hstep⟩ := List.mem_filterMap.mp (List.mem_of_mem_take hq)
  dsimp only at hstep
  repeat' split at hstep
  all_goals first
    | (obtain rfl := Option.some.inj hstep; exact ⟨_, _, rfl, rfl, rfl⟩)
    | exact absurd hstep (by simp)

theorem validateQuestion_of_strQ (fields : List (String × Json)) (s : String)
    (h : jGet fields "question" = some (Json.str s)) :
    ∃ r, validateQuestion (Json.obj fields) = some r := by
  simp only [validateQuestion, h]
  split
  · exact ⟨_, rfl⟩
  · exact ⟨_, rfl⟩

theorem validateQuestionsList_total (qs : List Json)
    (h : ∀ q ∈ qs, ∃ r, validateQuestion q = some r) :
    ∃ l, validateQuestionsList qs = some l := by
  induction qs with
  | nil => exact ⟨[], rfl⟩
  | cons q rest ih =>
    obtain ⟨r, hr⟩ := h q (List.mem_cons_self _ _)
    obtain ⟨l, hl⟩ := ih (fun p hp => h p (List.mem_cons_of_mem _ hp))
    cases r with
    | none => exact ⟨l, by simp [validateQuestionsList, hr, hl]⟩
    | some v => exact ⟨v :: l, by simp [validateQuestionsList, hr, hl]⟩

/-- Strategy 4 of the follow-up parser never fails: manual extraction always
produces records the validator accepts. -/
theorem qStrat4_total (text : String) : ∃ l, qStrat4 text = some l := by
  obtain ⟨l0, hl0⟩ := validateQuestionsList_total (_extract_questions_manually text)
    (fun q hq => by
      obtain ⟨fields, s, rfl, hs, _⟩ := manual_extraction_entry text q hq
      exact validateQuestion_of_strQ fields s hs)
  exact ⟨l0.take 10, by simp [qStrat4, _validate_questions, hl0]⟩

/-- C8 (amended): the code defines a fixed fallback set of exactly 5 canned
questions, one per category (team, market, technology, business, risk), as
the terminal rung of the parse ladder; but under a text-generation-call
failure the stage returns a single error-question record (category "error",
empty priority list), not the canned set, and the canned set is unreachable
through parsing alone because the manual-extraction strategy never fails. -/
theorem followup_fallback_behavior (loads : String → Option Json)
    (regex_array_match : String → Option String) (e text : String) :
    _generate_fallback_questions.length = 5 ∧
    _generate_fallback_questions.map (qField "category")
      = [some (.str "team"), some (.str "market"), some (.str "technology"),
         some (.str "business"), some (.str "risk")] ∧
    (generate_followup_questions loads regex_array_match (.error e)).followup_questions
      = [Json.obj [("question", .str ("Error generating questions: " ++ e)),
                   ("category", .str "error")]] ∧
    (generate_followup_questions loads regex_array_match (.error e)).priority_questions = [] ∧
    (∃ l, qStrat4 text = some l) :=
  ⟨rfl, rfl, rfl, rfl, qStrat4_total text⟩

/-- C8 counterexample: under total model failure (the completion call raises)
the stage returns the single error-question record, not the fixed set of 5
canned fallback questions. -/
theorem followup_fallback_counterexample :
    (generate_followup_questions (fun _ => none) (fun _ => none)
        (.error "boom")).followup_questions
      = [Json.obj [("question", .str "Error generating questions: boom"),
                   ("category", .str "error")]] ∧
    (generate_followup_questions (fun _ => none) (fun _ => none)
        (.error "boom")).followup_questions.length = 1 ∧
    _generate_fallback_questions.length = 5 ∧
    (1 : Nat) ≠ 5 :=
  ⟨rfl, rfl, rfl, by omega⟩

/-- C9 counterexample: a successfully JSON-parsed question record with the
category field omitted is retained with the fixed default category
`"general"`, not the keyword-derived category (`_categorize_question` would
say `"team"` for this text). -/
theorem categorize_counterexample :
    _validate_questions (Json.arr [Json.obj
        [("question", Json.str "What is your team experience?")]])
      = some [Json.obj
        [("question", .str "What is your team experience?"),
         ("category", .str "general"),
         ("priority", .str "medium"),
         ("rationale", .str "No rationale provided")]] ∧
    _categorize_question "What is your team experience?" = "team" ∧
    ("general" : String) ≠ "team" :=
  ⟨rfl, rfl, by decide⟩

/-- C9 (amended): a JSON-parsed question record without a category field is
assigned the fixed default category "general" by the validator; keyword-based
auto-categorization is applied only in the manual-extraction path, where every
extracted question is categorized from its own text. -/
theorem category_defaulting_and_manual_categorization (text : String)
    (fields : List (String × Json)) (s : String) :
    (∀ r ∈ _extract_questions_manually text, ∃ qs, qField "question" r = some (Json.str qs) ∧
      qField "category" r = some (Json.str (_categorize_question qs))) ∧
    (jGet fields "question" = some (Json.str s) → s ≠ "" → jGet fields "category" = none →
      validateQuestion (Json.obj fields) = some (some (Json.obj
        [("question", .str (pyStrip s)), ("category", .str "general"),
         ("priority", jGetD fields "priority" (.str "medium")),
         ("rationale", jGetD fields "rationale" (.str "No rationale provided"))]))) := by
  constructor
  · intro r hr
    obtain ⟨f, qs, rfl, hq, hc⟩ := manual_extraction_entry text r hr
    exact ⟨qs, by simpa [qField] using hq, by simpa [qField] using hc⟩
  · intro hq hs hcat
    have hb : (s == "") = false := beq_eq_false_iff_ne.mpr hs
    simp only [validateQuestion, hq, jsonTruthy, hb, Bool.not_false, if_true, jGetD, hcat,
      Option.getD_none]

/-- C9 witness: the amended defaulting clause at a concrete record with no
category field. -/
theorem category_defaulting_witness :
    validateQuestion (Json.obj [("question", Json.str "Is the product scalable?")])
      = some (some (Json.obj
        [("question", .str "Is the product scalable?"), ("category", .str "general"),
         ("priority", .str "medium"), ("rationale", .str "No rationale provided")])) := by
  have h := (category_defaulting_and_manual_categorization ""
      [("question", Json.str "Is the product scalable?")] "Is the product scalable?").2
    rfl (by decide) rfl
  simpa using h

theorem validFounderEntry_bounds (f : Json) (d : FounderData)
    (h : validFounderEntry f = some (some d)) :
    2 < d.name.length ∧ d.name.length < 100 := by
  cases f with
  | null => simp [validFounderEntry] at h
  | bool b => simp [validFounderEntry] at h
  | num n => simp [validFounderEntry] at h
  | str s => simp [validFounderEntry] at h
  | arr l => simp [validFounderEntry] at h
  | obj fields =>
    simp only [validFounderEntry] at h
    cases hq : jGet fields "name" with
    | none => rw [hq] at h; simp at h
    | some v =>
      rw [hq] at h
      cases v with
      | str s =>
        by_cases ht : jsonTruthy (Json.str s)
        · simp only [ht, if_true] at h
          by_cases hlen : 2 < (pyStrip s).length ∧ (pyStrip s).length < 100
          · simp only [hlen, if_true] at h
            cases hr : jGetD fields "role" (.str "") <;> rw [hr] at h <;>
              cases hb : jGetD fields "bio" (.str "") <;> rw [hb] at h <;>
              simp_all
            obtain ⟨rfl⟩ := h
            exact hlen
          · simp only [hlen, if_false] at h; simp at h
        · simp only [ht, if_false] at h; simp at h
      | null => simp at h
      | bool b =>
        by_cases ht : jsonTruthy (Json.bool b)
        · simp only [ht, if_true] at h; simp at h
        · simp only [ht, if_false] at h; simp at h
      | num n =>
        by_cases ht : jsonTruthy (Json.num n)
        · simp only [ht, if_true] at h; simp at h
        · simp only [ht, if_false] at h; simp at h
      | arr l =>
        by_cases ht : jsonTruthy (Json.arr l)
        · simp only [ht, if_true] at h; simp at h
        · simp only [ht, if_false] at h; simp at h
      | obj l =>
        by_cases ht : jsonTruthy (Json.obj l)
        · simp only [ht, if_true] at h; simp at h
        · simp only [ht, if_false] at h; simp at h

theorem founderEntriesList_bounds (fs : List Json) (l : List FounderData)
    (h : founderEntriesList fs = some l) :
    ∀ d ∈ l, 2 < d.name.length ∧ d.name.length < 100 := by
  induction fs generalizing l with
  | nil =>
    simp only [founderEntriesList, Option.some.injEq] at h
    subst h; simp
  | cons f rest ih =>
    simp only [founderEntriesList, Option.bind_eq_bind] at h
    cases hf : validFounderEntry f with
    | none => rw [hf] at h; simp at h
    | some r =>
      rw [hf] at h
      cases hr : founderEntriesList rest with
      | none => rw [hr] at h; simp at h
      | some rs =>
        rw [hr] at h
        cases r with
        | none =>
          simp only [Option.some_bind, Option.pure_def, Option.some.injEq] at h
          subst h; exact ih rs hr
        | some v =>
          simp only [Option.some_bind, Option.pure_def, Option.some.injEq] at h
          subst h
          intro d hd
          rcases List.mem_cons.mp hd with rfl | hd
          · exact validFounderEntry_bounds f d hf
          · exact ih rs hr d hd

/-- C4 (amended): the primary extraction path checks only that the stripped
name has length strictly between 2 and 100 (no token-count or
control-character validation there) and keeps at most 10 candidates; the
regex-fallback path checks the same 2-100 length bounds (not 3-50) plus a
whitespace-token count of at most 4, and keeps at most 5. Failing names are
dropped, not corrected. -/
theorem founder_extraction_filters (j : Json) (names : List String) :
    (∀ l, founderEntriesParse j = some l → l.length ≤ 10 ∧
      ∀ d ∈ l, 2 < d.name.length ∧ d.name.length < 100) ∧
    (_extract_names_regex names).length ≤ 5 ∧
    (∀ d ∈ _extract_names_regex names, ∃ orig ∈ names, d.name = pyStrip orig ∧
      2 < (pyStrip orig).length ∧ (pyStrip orig).length < 100 ∧
      (pySplitWs orig).length ≤ 4) := by
  refine ⟨fun l h => ?_, ?_, fun d hd => ?_⟩
  · cases j with
    | arr fs =>
      simp only [founderEntriesParse, Option.map_eq_map] at h
      cases hv : founderEntriesList fs with
      | none => rw [hv] at h; simp at h
      | some l0 =>
        rw [hv] at h
        obtain rfl : l0.take 10 = l := Option.some.inj h
        exact ⟨List.length_take_le 10 l0,
          fun d hd => founderEntriesList_bounds fs l0 hv d (List.mem_of_mem_take hd)⟩
    | str s =>
      simp only [founderEntriesParse, Option.some.injEq] at h
      subst h; simp
    | obj fields =>
      simp only [founderEntriesParse, Option.some.injEq] at h
      subst h; simp
    | null =>
      simp only [founderEntriesParse, Option.some.injEq] at h
      subst h; simp
    | bool b =>
      simp only [founderEntriesParse, Option.some.injEq] at h
      subst h; simp
    | num n =>
      simp only [founderEntriesParse, Option.some.injEq] at h
      subst h; simp
  · exact List.length_take_le 5 _
  · have hd' := List.mem_of_mem_take hd
    obtain ⟨orig, horig, rfl⟩ := List.mem_map.mp hd'
    have hmem := List.mem_filter.mp horig
    have hcond := of_decide_eq_true hmem.2
    exact ⟨orig, hmem.1, rfl, hcond.1, hcond.2.1, hcond.2.2⟩

/-- C4 witness: a clean two-token name passes the primary filter with the
2-100 length bounds. -/
theorem founder_extraction_filters_witness :
    founderEntriesParse (Json.arr [Json.obj [("name", Json.str "Jane Doe")]])
      = some [⟨"Jane Doe", "", ""⟩] ∧
    ([⟨"Jane Doe", "", ""⟩] : List FounderData).length ≤ 10 :=
  ⟨rfl,
    ((founder_extraction_filters (Json.arr [Json.obj [("name", Json.str "Jane Doe")]]) []).1
      [⟨"Jane Doe", "", ""⟩] rfl).1⟩

/-- C4 counterexample: the primary path retains a five-token name and a name
containing a newline (no token-count or control-character check exists
there), and the regex path retains a 60-character name (its bounds are 2-100,
not 3-50). -/
theorem founder_validation_counterexample :
    _extract_founders_with_bios
        (fun _ => some (Json.arr
          [Json.obj [("name", Json.str "Aa Bb Cc Dd Ee")],
           Json.obj [("name", Json.str "Ann\nBob")]]))
        (.ok "t") []
      = [⟨"Aa Bb Cc Dd Ee", "", ""⟩, ⟨"Ann\nBob", "", ""⟩] ∧
    (pySplitWs "Aa Bb Cc Dd Ee").length = 5 ∧
    pyContains "Ann\nBob" "\n" = true ∧
    _extract_names_regex ["Abcdefghijklmnopqrstuvwxyzabcdefghijklmnopqrstuvwxyzabcdefgh"]
      = [⟨"Abcdefghijklmnopqrstuvwxyzabcdefghijklmnopqrstuvwxyzabcdefgh", "", ""⟩] ∧
    ("Abcdefghijklmnopqrstuvwxyzabcdefghijklmnopqrstuvwxyzabcdefgh" : String).length = 60 :=
  ⟨rfl, rfl, rfl, rfl, rfl⟩

theorem waitLoopGo_timeout (check : Nat → ScanStatus)
    (h : ∀ i, (check i).status ≠ some "completed") :
    ∀ r i, waitLoopGo check r i = scanTimeoutRecord := by
  intro r
  induction r with
  | zero => intro i; rfl
  | succ n ih =>
    intro i
    simp only [waitLoopGo]
    rw [if_neg (h i)]
    exact ih (i + 1)

/-- C6: when the scan never reaches status "completed", the polling loop
(ceiling `max_wait_time`, 10-second interval, source default 300) returns the
timeout record with `success = false` rather than raising, and the enriched
founder record carries `gitroll_score = none` and `gitroll_user_id = none`
while the remaining enrichment fields (links, bio, scores) are still
populated from the other sources. -/
theorem gitroll_timeout_nonfatal (name company deck_bio role : String)
    (google_info : GoogleInfo) (github_info : Option GithubProfile)
    (gitroll_result : GitRollScanResponse) (check : Nat → ScanStatus)
    (founder_score : FounderScore)
    (hnc : ∀ i, (check i).status ≠ some "completed") :
    wait_for_scan_completion check 300 = scanTimeoutRecord ∧
    (wait_for_scan_completion check 300).success = false ∧
    ((_search_founder_info_comprehensive name company deck_bio role google_info
        github_info gitroll_result check founder_score).gitroll_score = none ∧
     (_search_founder_info_comprehensive name company deck_bio role google_info
        github_info gitroll_result check founder_score).gitroll_user_id = none ∧
     (_search_founder_info_comprehensive name company deck_bio role google_info
        github_info gitroll_result check founder_score).score = founder_score.score ∧
     (_search_founder_info_comprehensive name company deck_bio role google_info
        github_info gitroll_result check founder_score).technical_score
       = founder_score.technical_score ∧
     (_search_founder_info_comprehensive name company deck_bio role google_info
        github_info gitroll_result check founder_score).linkedin
       = google_info.linkedin.getD "" ∧
     (_search_founder_info_comprehensive name company deck_bio role google_info
        github_info gitroll_result check founder_score).twitter
       = google_info.twitter.getD "" ∧
     (_search_founder_info_comprehensive name company deck_bio role google_info
        github_info gitroll_result check founder_score).name = name) := by
  have hw : wait_for_scan_completion check 300 = scanTimeoutRecord :=
    waitLoopGo_timeout check hnc _ 0
  refine ⟨hw, by rw [hw]; rfl, ?_, ?_, rfl, rfl, rfl, rfl, rfl⟩ <;>
    · unfold _search_founder_info_comprehensive
      rw [hw]
      cases github_info with
      | none => rfl
      | some g =>
        by_cases hl : pyTruthyStr g.login
        · by_cases hc : gitroll_result.success ∧ pyTruthyStr gitroll_result.scan_id
          · simp [hl, hc, scanTimeoutRecord]
          · simp [hl, hc]
        · simp [hl]

/-- C6 witness: a scan that stays in status "processing" forever. -/
theorem gitroll_timeout_nonfatal_witness :
    (wait_for_scan_completion
        (fun _ => ⟨true, some "processing", none, none, none, none⟩) 300).success = false ∧
    (_search_founder_info_comprehensive "Jane Doe" "Acme" "bio" "CEO"
        ⟨some "li", some "tw", some "gh", some "b", some "Acme", some true⟩
        (some ⟨some "janedoe", none⟩)
        ⟨true, some "scan1", none, some "janedoe", "Scan initiated successfully"⟩
        (fun _ => ⟨true, some "processing", none, none, none, none⟩)
        ⟨Json.num 7, Json.num 8, Json.num 6, Json.str "solid"⟩).gitroll_score = none :=
  ⟨(gitroll_timeout_nonfatal "Jane Doe" "Acme" "bio" "CEO"
      ⟨some "li", some "tw", some "gh", some "b", some "Acme", some true⟩
      (some ⟨some "janedoe", none⟩)
      ⟨true, some "scan1", none, some "janedoe", "Scan initiated successfully"⟩
      (fun _ => ⟨true, some "processing", none, none, none, none⟩)
      ⟨Json.num 7, Json.num 8, Json.num 6, Json.str "solid"⟩
      (fun i => by
        show (some "processing" : Option String) ≠ some "completed"
        decide)).2.1,
    (gitroll_timeout_nonfatal "Jane Doe" "Acme" "bio" "CEO"
      ⟨some "li", some "tw", some "gh", some "b", some "Acme", some true⟩
      (some ⟨some "janedoe", none⟩)
      ⟨true, some "scan1", none, some "janedoe", "Scan initiated successfully"⟩
      (fun _ => ⟨true, some "processing", none, none, none, none⟩)
      ⟨Json.num 7, Json.num 8, Json.num 6, Json.str "solid"⟩
      (fun i => by
        show (some "processing" : Option String) ≠ some "completed"
        decide)).2.2.1⟩

/-- C5: `status = error` with `analysis_completed = false` arises exactly
from input-stage failures — unsupported extension, a raised extraction error,
or empty/whitespace-only extracted text — and in those cases the result is a
fixed envelope independent of every stage body; whenever extraction yields
non-blank text, the response has `status = success` and
`analysis_completed = true` for every combination of stage-body outcomes
(all stage failures are absorbed into typed defaults). -/
theorem upload_status_discrimination (filename : String)
    (extract : String → Except String String)
    (project_body : Except String ProjectSummary) (viability_body : Except String Json)
    (founders_body : Except String (List Json)) (github_body : Except String (List Json))
    (summary_body : Except String String) (competitor_body : Except String Json)
    (compliance_body : Except String Json) (followup : FollowupResult) :
    (pyExt filename ∉ supportedExts →
      analyze_project_upload filename extract project_body viability_body founders_body
          github_body summary_body competitor_body compliance_body followup
        = uploadErrorResponse "Unsupported file type. Use PDF, PPTX, DOCX, TXT or MD.") ∧
    (∀ e, pyExt filename ∈ supportedExts → extract (pyExt filename) = .error e →
      analyze_project_upload filename extract project_body viability_body founders_body
          github_body summary_body competitor_body compliance_body followup
        = uploadErrorResponse ("Error during analysis: " ++ e)) ∧
    (∀ text, pyExt filename ∈ supportedExts → extract (pyExt filename) = .ok text →
      pyStrip text = "" →
      analyze_project_upload filename extract project_body viability_body founders_body
          github_body summary_body competitor_body compliance_body followup
        = uploadErrorResponse "Could not extract text from file.") ∧
    (∀ text, pyExt filename ∈ supportedExts → extract (pyExt filename) = .ok text →
      pyStrip text ≠ "" →
      (analyze_project_upload filename extract project_body viability_body founders_body
          github_body summary_body competitor_body compliance_body followup).status
        = "success" ∧
      (analyze_project_upload filename extract project_body viability_body founders_body
          github_body summary_body competitor_body compliance_body followup).analysis_completed
        = true) := by
  refine ⟨fun hno => ?_, fun e hyes hext => ?_, fun text hyes hext hblank => ?_,
    fun text hyes hext hnonblank => ?_⟩
  · simp only [analyze_project_upload]
    rw [if_pos hno]
  · simp only [analyze_project_upload]
    rw [if_neg (by simpa using hyes), hext]
  · simp only [analyze_project_upload]
    rw [if_neg (by simpa using hyes), hext]
    simp only [hblank, if_pos rfl]
    rfl
  · simp only [analyze_project_upload]
    rw [if_neg (by simpa using hyes), hext]
    constructor <;>
      · repeat' split
        all_goals first
          | rfl
          | exact absurd (by assumption) hnonblank
          | simp_all

/-- C5 witness: a supported file whose every stage body fails still yields a
success response with `analysis_completed = true`. -/
theorem upload_status_discrimination_witness :
    (analyze_project_upload "deck.pdf" (fun _ => .ok "PROJECT: Acme")
        (.error "x1") (.error "x2") (.error "x3") (.error "x4") (.error "x5")
        (.error "x6") (.error "x7")
        (followupErrorRecord "x8")).status = "success" ∧
    (analyze_project_upload "deck.pdf" (fun _ => .ok "PROJECT: Acme")
        (.error "x1") (.error "x2") (.error "x3") (.error "x4") (.error "x5")
        (.error "x6") (.error "x7")
        (followupErrorRecord "x8")).analysis_completed = true :=
  (upload_status_discrimination "deck.pdf" (fun _ => .ok "PROJECT: Acme")
      (.error "x1") (.error "x2") (.error "x3") (.error "x4") (.error "x5")
      (.error "x6") (.error "x7") (followupErrorRecord "x8")).2.2.2
    "PROJECT: Acme" (by decide) rfl (by decide)

end VenturePilot
